import Mathlib

/-!
Shallow embedding of the MySQL++ template-query core (the `Query` class's
parse / pprepare / proc pipeline and the store / store_next execution paths),
translated from `lib/query.cpp` of the v3 (DBDriver-based) implementation,
with `lib/sql_string.cpp` informing the value flags.  Machine-level detail
that matters is kept: the parser stores a placeholder position through a
C `signed char`, so three-digit values above 127 wrap around.
-/

namespace Mysqlpp

/-- An escaped/quoted string value handed to the substitution engine
(`SQLTypeAdapter` in the source; `SQLString` in the older generation).
Fields follow `sql_string.cpp`: the raw text, whether the value came from a
string-typed source, whether escaping was suppressed for it, and whether it
has already been substituted once. -/
structure SQLTypeAdapter where
  data : String
  is_string : Bool
  dont_escape : Bool
  processed : Bool
deriving Repr, DecidableEq

instance : Inhabited SQLTypeAdapter := ⟨⟨"", false, false, false⟩⟩

/-- Modelled from the spec: `SQLTypeAdapter::quote_q()` is declared in a
header that is not under src/ (only its call sites in `Query::pprepare`
are).  Per the spec's data model and §4.3, a string-typed value is the one
that gets wrapped in quote characters; a numeric-typed value is emitted
as-is. -/
def SQLTypeAdapter.quote_q (S : SQLTypeAdapter) : Bool := S.is_string

/-- Modelled from the spec: `SQLTypeAdapter::escape_q()` is declared in a
header that is not under src/.  Per the spec's data model, a string-typed
value is escaped through the driver's escaping routine unless `dont_escape`
was requested for it. -/
def SQLTypeAdapter.escape_q (S : SQLTypeAdapter) : Bool :=
  S.is_string && !S.dont_escape

/-- One parsed template segment (`SQLParseElement` in the source): the
literal text preceding a placeholder, the option character, and the
placeholder position (`-1` sentinel for the trailing literal segment). -/
structure SQLParseElement where
  before : String
  option : Char
  num : Int
deriving Repr, DecidableEq

/-- Conversion of the `atoi` result into the C `signed char n` used by
`Query::parse`: values are reduced mod 256 and re-read as a signed byte. -/
def toSignedChar (v : Nat) : Int :=
  if v % 256 < 128 then (v % 256 : Int) else (v % 256 : Int) - 256

/-- Numeric value of one decimal digit character. -/
def digitVal (c : Char) : Nat := c.toNat - '0'.toNat

/-- The digit-consuming step of `Query::parse`: after `%` and a first digit
`d1`, consume up to two more digits, returning the `atoi` value of the one-
to three-digit string and the remaining input. -/
def takeNum (d1 : Char) (s : List Char) : Nat × List Char :=
  match s with
  | d2 :: rest =>
    if d2.isDigit then
      match rest with
      | d3 :: rest2 =>
        if d3.isDigit then
          (100 * digitVal d1 + 10 * digitVal d2 + digitVal d3, rest2)
        else
          (10 * digitVal d1 + digitVal d2, d3 :: rest2)
      | [] => (10 * digitVal d1 + digitVal d2, [])
    else
      (digitVal d1, d2 :: rest)
  | [] => (digitVal d1, [])

/-- The option-character step of `Query::parse`: an optional single `q` or
`Q` directly after the digits (the v3 parser recognises only these two). -/
def takeOption : List Char → Char × List Char
  | c :: rest => if c = 'q' || c = 'Q' then (c, rest) else (' ', c :: rest)
  | [] => (' ', [])

/-- Identifier accumulation inside a `:name:` clause: alphanumeric or
underscore characters. -/
def takeIdent : List Char → String → String × List Char
  | c :: rest, acc =>
    if c.isAlphanum || c = '_' then takeIdent rest (acc.push c)
    else (acc, c :: rest)
  | [], acc => (acc, [])

/-- The named-parameter step of `Query::parse`: an optional `:name` clause
after the option character, with the trailing colon eaten if present. -/
def takeName : List Char → Option String × List Char
  | ':' :: rest =>
    let r := takeIdent rest ""
    match r.2 with
    | ':' :: rest2 => (some r.1, rest2)
    | _ => (some r.1, r.2)
  | s => (none, s)

/-- Replacement-or-insert update of the `parsed_nums_` name-to-position
map (a `std::map` assignment), modelled as an association list. -/
def updateAssoc (nums : List (String × Int)) (k : String) (v : Int) :
    List (String × Int) :=
  match nums with
  | [] => [(k, v)]
  | (k0, v0) :: rest =>
    if k0 = k then (k, v) :: rest else (k0, v0) :: updateAssoc rest k v

/-- The map-maintenance block of `Query::parse`: grow `parsed_names_` to
at least `n + 1` entries (backfilling with empty names), record the name at
position `n`, and record the position under the name.  A wrapped (negative)
position would index the vector out of bounds in the source, which is
undefined behaviour; the maps are left untouched for that case here. -/
def updateMaps (n : Int) (nm : String) (names : List String)
    (nums : List (String × Int)) : List String × List (String × Int) :=
  if 0 ≤ n then
    let nn := n.toNat
    let names1 :=
      if names.length ≤ nn then
        names ++ List.replicate (nn + 1 - names.length) ""
      else names
    (names1.set nn nm, updateAssoc nums nm n)
  else (names, nums)

/-- Output of `Query::parse`: the member state it fills in. -/
structure ParseResult where
  parse_elems : List SQLParseElement
  parsed_names : List String
  parsed_nums : List (String × Int)
deriving Repr, DecidableEq

/-- The scanning loop of `Query::parse` (`while (*s)` over the template),
accumulating the current literal run in `str` and appending one
`SQLParseElement` per placeholder, with a final trailing element of
position `-1`. -/
def parseLoop (s : List Char) (str : String) (elems : List SQLParseElement)
    (names : List String) (nums : List (String × Int)) : ParseResult :=
  match s with
  | [] => ⟨elems ++ [⟨str, ' ', -1⟩], names, nums⟩
  | '%' :: rest =>
    match rest with
    | '%' :: rest2 =>
      -- doubled percent sign: literal percent sign
      parseLoop rest2 (str.push '%') elems names nums
    | c :: rest2 =>
      if c.isDigit then
        -- positional parameter: up to three digits, option char, name
        let rNum := takeNum c rest2
        let n : Int := toSignedChar rNum.1
        let rOpt := takeOption rNum.2
        let rName := takeName rOpt.2
        let maps :=
          match rName.1 with
          | some nm => updateMaps n nm names nums
          | none => (names, nums)
        parseLoop rName.2 "" (elems ++ [⟨str, rOpt.1, n⟩]) maps.1 maps.2
      else
        -- lenient recovery: emit a literal percent sign, re-examine c
        parseLoop (c :: rest2) (str.push '%') elems names nums
    | [] => parseLoop [] (str.push '%') elems names nums
  | c :: rest => parseLoop rest (str.push c) elems names nums
termination_by s.length
decreasing_by
  all_goals simp
  all_goals try omega
  have htn : ∀ (d1 : Char) (l : List Char), (takeNum d1 l).2.length ≤ l.length := by
    intro d1 l
    rcases l with _ | ⟨d2, _ | ⟨d3, r⟩⟩
    · simp [takeNum]
    · by_cases hx : d2.isDigit <;> simp [takeNum, hx]
    · by_cases hx : d2.isDigit <;> by_cases hy : d3.isDigit <;>
        simp [takeNum, hx, hy] <;> omega
  have hto : ∀ l : List Char, (takeOption l).2.length ≤ l.length := by
    intro l
    rcases l with _ | ⟨cx, r⟩
    · simp [takeOption]
    · by_cases hx : (cx = 'q' || cx = 'Q') = true <;> simp_all [takeOption]
  have hti : ∀ (l : List Char) (acc : String), (takeIdent l acc).2.length ≤ l.length := by
    intro l
    induction l with
    | nil => intro acc; simp [takeIdent]
    | cons cx r ih =>
      intro acc
      by_cases hx : (cx.isAlphanum || cx = '_') = true
      · simpa [takeIdent, hx] using Nat.le_succ_of_le (ih (acc.push cx))
      · simp [takeIdent, hx]
  have htm : ∀ l : List Char, (takeName l).2.length ≤ l.length := by
    intro l
    unfold takeName
    split
    · rename_i r
      have hid := hti r ""
      dsimp only
      split
      · rename_i r2 heq
        rw [heq] at hid
        simp at hid ⊢
        omega
      · simp
        omega
    · simp
  have g1 := htn c rest2
  have g2 := hto (takeNum c rest2).2
  have g3 := htm (takeOption (takeNum c rest2).2).2
  omega

/-- `Query::parse`: lex the template string into segments and name maps,
starting from the empty member state. -/
def parse (template : String) : ParseResult :=
  parseLoop template.toList "" [] [] []

instance {e a : Type} [DecidableEq e] [DecidableEq a] : DecidableEq (Except e a)
  | .ok x, .ok y =>
    if h : x = y then isTrue (congrArg Except.ok h)
    else isFalse (fun hc => h (Except.ok.inj hc))
  | .error x, .error y =>
    if h : x = y then isTrue (congrArg Except.error h)
    else isFalse (fun hc => h (Except.error.inj hc))
  | .ok x, .error y => isFalse (fun hc => Except.noConfusion hc)
  | .error x, .ok y => isFalse (fun hc => Except.noConfusion hc)

/-- The error kinds thrown by the embedded operations (`exceptions.h`).
`BadQuery` carries the driver error code that `errnum()` reported. -/
inductive QueryError where
  | BadParamCount
  | BadQuery (errnum : Nat)
deriving Repr, DecidableEq

/-- A parameter list (`SQLQueryParms`): the ordered values plus its
`bound()` flag.  Modelled from the spec: `SQLQueryParms::bound()` is
declared in a header that is not under src/ (only its call site in
`Query::proc` is).  Per the spec's data model, the flag distinguishes a
mutable call-site list, which substitution may overwrite in place
(`bound = true`), from the query's read-only defaults list
(`bound = false`). -/
structure SQLQueryParms where
  params : List SQLTypeAdapter
  bound : Bool
deriving Repr, DecidableEq

/-- `Query::pprepare(option, S, replace)`: render one resolved parameter
value under the formatting option.  `esc` stands for the driver's
`escape_string` routine.  The result models the C++ signature: the value
the caller will print, the (possibly overwritten) `S`, and whether a fresh
temporary was returned (`ss != &S`, which the caller then deletes). -/
def pprepare (esc : String → String) (option : Char) (S : SQLTypeAdapter)
    (replace : Bool) : SQLTypeAdapter × SQLTypeAdapter × Bool :=
  if S.processed then
    (S, S, false)
  else if option = 'q' then
    let temp :=
      (if S.quote_q then "'" else "")
        ++ (if S.escape_q then esc S.data else S.data)
        ++ (if S.quote_q then "'" else "")
    let ss : SQLTypeAdapter :=
      { data := temp, is_string := true, dont_escape := false, processed := false }
    if replace then
      let S' := { ss with processed := true }
      (S', S', false)
    else
      (ss, S, true)
  else if option = 'Q' && S.quote_q then
    let ss : SQLTypeAdapter :=
      { data := "'" ++ S.data ++ "'", is_string := true,
        dont_escape := false, processed := false }
    if replace then
      let S' := { ss with processed := true }
      (S', S', false)
    else
      (ss, S, true)
  else
    if replace then
      let S' := { S with processed := true }
      (S', S', false)
    else
      (S, S, false)

/-- One iteration of the loop in `Query::proc`: emit the segment's literal
text, and for a placeholder resolve the value from the call-site list `p`
if the position is within its bounds, else from `template_defaults` `d`,
else append " ERROR" to the buffer and throw `BadParamCount` (the throw is
unconditional: it does not consult the exceptions mode).  The success value
is the text appended to the output buffer plus the two updated lists; the
error value carries the text appended before the throw. -/
def procStep (esc : String → String) (p d : SQLQueryParms)
    (e : SQLParseElement) :
    Except (QueryError × String) (String × SQLQueryParms × SQLQueryParms) :=
  if 0 ≤ e.num then
    let n := e.num.toNat
    if n < p.params.length then
      let r := pprepare esc e.option (p.params.getD n default) p.bound
      .ok (e.before ++ r.1.data, { p with params := p.params.set n r.2.1 }, d)
    else if n < d.params.length then
      let r := pprepare esc e.option (d.params.getD n default) d.bound
      .ok (e.before ++ r.1.data, p, { d with params := d.params.set n r.2.1 })
    else
      .error (QueryError.BadParamCount, e.before ++ " ERROR")
  else
    .ok (e.before, p, d)

/-- The loop of `Query::proc` over the parsed segments, threading the
output buffer (the stream the source writes into) and the two parameter
lists.  On a throw, the error carries the buffer contents at that point:
the stream is not rolled back. -/
def procGo (esc : String → String) :
    List SQLParseElement → SQLQueryParms → SQLQueryParms → String →
    Except (QueryError × String) (String × SQLQueryParms × SQLQueryParms)
  | [], p, d, buffer => .ok (buffer, p, d)
  | e :: rest, p, d, buffer =>
    match procStep esc p d e with
    | .error (err, s) => .error (err, buffer ++ s)
    | .ok (s, p', d') => procGo esc rest p' d' (buffer ++ s)

/-- `Query::proc(p)`: clear the output buffer (`sbuffer_.str("")`) and run
the substitution loop over the parsed segments. -/
def proc (esc : String → String) (elems : List SQLParseElement)
    (p d : SQLQueryParms) :
    Except (QueryError × String) (String × SQLQueryParms × SQLQueryParms) :=
  procGo esc elems p d ""

/-- Codes of `DBDriver::next_result()` as consumed by `Query::store_next`. -/
inductive NRCode where
  | nr_more_results
  | nr_last_result
  | nr_error
  | nr_not_supported
deriving Repr, DecidableEq

/-- The driver responses one execution observes (`DBDriver` collaborator):
whether `execute()` succeeded, the handle `store_result()` returns (or
null), the pending `errnum()`, and the `next_result()` code. -/
structure DBDriver where
  executeOk : Bool
  storeResultHandle : Option Nat
  errnum : Nat
  nextResultCode : NRCode
deriving Repr, DecidableEq

/-- Modelled from the spec: `DBDriver::result_empty()` is declared in
dbdriver.h, which is not under src/ (only its call sites in `Query::store`
and `Query::use` are).  Per the spec's error-handling design, the
empty-result-vs-error ambiguity "is resolved by checking whether the
driver has a pending error code -- absence of an error code means
legitimately empty". -/
def DBDriver.result_empty (d : DBDriver) : Bool := d.errnum == 0

/-- A materialized result set as `Query::store` returns it: either wrapping
a driver handle or the default-constructed empty `Result()`. -/
inductive Result where
  | valid (handle : Nat)
  | empty
deriving Repr, DecidableEq

/-- The Query member state `store` touches besides the driver: the parsed
segments, the defaults list and the last-execution success flag. -/
structure QueryState where
  parse_elems : List SQLParseElement
  template_defaults : SQLQueryParms
  copacetic : Bool
deriving Repr, DecidableEq

/-- `Query::reset()` on the members carried here: clears the parsed
segments and the defaults list (the output buffer is threaded separately
through `proc`). -/
def QueryState.reset (q : QueryState) : QueryState :=
  { q with parse_elems := [],
           template_defaults := { q.template_defaults with params := [] } }

/-- `Query::store(str, len)`: run the statement, auto-reset when not a
template query, then interpret the driver's result handle; a null handle
is a legitimately empty result unless the driver has a pending error, in
which case `BadQuery` is thrown if exceptions are enabled. -/
def store (q : QueryState) (drv : DBDriver) (throwExceptions : Bool) :
    QueryState × Except QueryError Result :=
  let q1 := { q with copacetic := drv.executeOk }
  let q2 := if q1.parse_elems.length = 0 then q1.reset else q1
  let res := if q2.copacetic then drv.storeResultHandle else none
  match res with
  | some h => (q2, .ok (Result.valid h))
  | none =>
    let q3 := { q2 with copacetic := drv.result_empty }
    if q3.copacetic || !throwExceptions then
      (q3, .ok Result.empty)
    else
      (q3, .error (QueryError.BadQuery drv.errnum))

/-- `Query::store_next()`: advance to the next result set of a
multi-statement response.  The terminal no-more-results code with no
pending driver error returns an empty `Result` rather than an error. -/
def store_next (drv : DBDriver) (throwExceptions : Bool) :
    Except QueryError Result :=
  match drv.nextResultCode with
  | NRCode.nr_more_results =>
    match drv.storeResultHandle with
    | some h => .ok (Result.valid h)
    | none =>
      if drv.errnum != 0 && throwExceptions then
        .error (QueryError.BadQuery drv.errnum)
      else
        .ok Result.empty
  | rc =>
    if throwExceptions then
      if rc = NRCode.nr_error then .error (QueryError.BadQuery drv.errnum)
      else if drv.errnum != 0 then .error (QueryError.BadQuery drv.errnum)
      else .ok Result.empty
    else
      .ok Result.empty

/-- Reachability of one parameter-list state pair from another through a
sequence of successful substitution steps: the states a `proc` pass moves
through. -/
inductive Reaches (esc : String → String) :
    SQLQueryParms → SQLQueryParms → SQLQueryParms → SQLQueryParms → Prop where
  | refl (p d : SQLQueryParms) : Reaches esc p d p d
  | step {p d p1 d1 p2 d2 : SQLQueryParms} {s : String} (e : SQLParseElement)
      (h : procStep esc p d e = Except.ok (s, p1, d1))
      (h2 : Reaches esc p1 d1 p2 d2) : Reaches esc p d p2 d2

/-! Helper lemmas about list updates. -/

theorem takeNum_length_le (d1 : Char) (s : List Char) :
    (takeNum d1 s).2.length ≤ s.length := by
  match s with
  | [] => simp [takeNum]
  | [d2] => by_cases h : d2.isDigit <;> simp [takeNum, h]
  | d2 :: d3 :: rest2 =>
    by_cases h2 : d2.isDigit <;> by_cases h3 : d3.isDigit <;>
      simp [takeNum, h2, h3] <;> omega

theorem takeOption_length_le (s : List Char) :
    (takeOption s).2.length ≤ s.length := by
  match s with
  | [] => simp [takeOption]
  | c :: rest => by_cases h : (c = 'q' || c = 'Q') = true <;> simp_all [takeOption]

theorem takeIdent_length_le (s : List Char) (acc : String) :
    (takeIdent s acc).2.length ≤ s.length := by
  induction s generalizing acc with
  | nil => simp [takeIdent]
  | cons c rest ih =>
    by_cases h : (c.isAlphanum || c = '_') = true
    · simpa [takeIdent, h] using Nat.le_succ_of_le (ih (acc.push c))
    · simp [takeIdent, h]

theorem takeName_length_le (s : List Char) :
    (takeName s).2.length ≤ s.length := by
  unfold takeName
  split
  · rename_i rest
    have hid := takeIdent_length_le rest ""
    dsimp only
    split
    · rename_i rest2 heq
      rw [heq] at hid
      simp at hid ⊢
      omega
    · simp
      omega
  · simp



theorem getD_set_self {α : Type} (l : List α) (n : Nat) (a d : α)
    (h : n < l.length) : (l.set n a).getD n d = a := by
  induction l generalizing n with
  | nil => simp at h
  | cons x xs ih =>
    cases n with
    | zero => simp [List.getD]
    | succ m => simpa [List.getD] using ih m (by simpa using h)

theorem set_getD_self {α : Type} (l : List α) (n : Nat) (d : α)
    (h : n < l.length) : l.set n (l.getD n d) = l := by
  induction l generalizing n with
  | nil => simp at h
  | cons x xs ih =>
    cases n with
    | zero => simp [List.getD]
    | succ m =>
      rw [List.getD_cons_succ, List.set_cons_succ, ih m (by simpa using h)]

theorem getD_set_ne {α : Type} (l : List α) (n m : Nat) (a d : α)
    (h : n ≠ m) : (l.set n a).getD m d = l.getD m d := by
  simp [List.getD, List.getElem?_set_ne h]

/-! Computation rules for `pprepare`. -/

theorem pprepare_of_processed (esc : String → String) (o : Char)
    (S : SQLTypeAdapter) (rep : Bool) (h : S.processed = true) :
    pprepare esc o S rep = (S, S, false) := by
  simp [pprepare, h]

theorem pprepare_no_replace_snd (esc : String → String) (o : Char)
    (S : SQLTypeAdapter) : (pprepare esc o S false).2.1 = S := by
  unfold pprepare
  split
  · rfl
  · split
    · rfl
    · split
      · rfl
      · rfl

theorem pprepare_replace_fst_eq_snd (esc : String → String) (o : Char)
    (S : SQLTypeAdapter) : (pprepare esc o S true).1 = (pprepare esc o S true).2.1 := by
  unfold pprepare
  split
  · rfl
  · split
    · rfl
    · split
      · rfl
      · rfl

theorem pprepare_replace_snd_processed (esc : String → String) (o : Char)
    (S : SQLTypeAdapter) : ((pprepare esc o S true).2.1).processed = true := by
  unfold pprepare
  split
  · rename_i h
    exact h
  · split
    · rfl
    · split
      · rfl
      · rfl

theorem pprepare_third_false (esc : String → String) (o : Char)
    (S : SQLTypeAdapter) : (pprepare esc o S true).2.2 = false := by
  unfold pprepare
  split
  · rfl
  · split
    · rfl
    · split
      · rfl
      · rfl

/-! Computation rules for `procStep`. -/

theorem procStep_num_neg (esc : String → String) (p d : SQLQueryParms)
    (e : SQLParseElement) (h : e.num < 0) :
    procStep esc p d e = .ok (e.before, p, d) := by
  simp [procStep, not_le.mpr h]

theorem procStep_in_p (esc : String → String) (p d : SQLQueryParms)
    (e : SQLParseElement) (n : Nat) (hnum : e.num = (n : Int))
    (h : n < p.params.length) :
    procStep esc p d e = .ok
      (e.before ++ (pprepare esc e.option (p.params.getD n default) p.bound).1.data,
       { p with params :=
          p.params.set n (pprepare esc e.option (p.params.getD n default) p.bound).2.1 },
       d) := by
  simp [procStep, hnum, h]

theorem procStep_in_d (esc : String → String) (p d : SQLQueryParms)
    (e : SQLParseElement) (n : Nat) (hnum : e.num = (n : Int))
    (hp : p.params.length ≤ n) (h : n < d.params.length) :
    procStep esc p d e = .ok
      (e.before ++ (pprepare esc e.option (d.params.getD n default) d.bound).1.data,
       p,
       { d with params :=
          d.params.set n (pprepare esc e.option (d.params.getD n default) d.bound).2.1 }) := by
  simp [procStep, hnum, not_lt.mpr hp, h]

theorem procStep_out_of_bounds (esc : String → String) (p d : SQLQueryParms)
    (e : SQLParseElement) (n : Nat) (hnum : e.num = (n : Int))
    (hp : p.params.length ≤ n) (hd : d.params.length ≤ n) :
    procStep esc p d e = .error (QueryError.BadParamCount, e.before ++ " ERROR") := by
  simp [procStep, hnum, not_lt.mpr hp, not_lt.mpr hd]

/-! Frame lemmas for single substitution steps. -/

theorem procStep_ok_preserves {esc : String → String} {p d : SQLQueryParms}
    {e : SQLParseElement} {s : String} {p1 d1 : SQLQueryParms}
    (h : procStep esc p d e = .ok (s, p1, d1)) :
    p1.bound = p.bound ∧ d1.bound = d.bound ∧
      p1.params.length = p.params.length ∧
      d1.params.length = d.params.length := by
  by_cases h0 : 0 ≤ e.num
  · have hnum : e.num = (e.num.toNat : Int) := by omega
    by_cases h1 : e.num.toNat < p.params.length
    · rw [procStep_in_p esc p d e e.num.toNat hnum h1] at h
      simp only [Except.ok.injEq, Prod.mk.injEq] at h
      obtain ⟨-, h2, h3⟩ := h
      subst h2; subst h3
      simp
    · by_cases h2 : e.num.toNat < d.params.length
      · rw [procStep_in_d esc p d e e.num.toNat hnum (not_lt.mp h1) h2] at h
        simp only [Except.ok.injEq, Prod.mk.injEq] at h
        obtain ⟨-, h3, h4⟩ := h
        subst h3; subst h4
        simp
      · rw [procStep_out_of_bounds esc p d e e.num.toNat hnum
              (not_lt.mp h1) (not_lt.mp h2)] at h
        simp at h
  · rw [procStep_num_neg esc p d e (not_le.mp h0)] at h
    simp only [Except.ok.injEq, Prod.mk.injEq] at h
    obtain ⟨-, h2, h3⟩ := h
    subst h2; subst h3
    exact ⟨rfl, rfl, rfl, rfl⟩

theorem procStep_preserves_processed_p {esc : String → String}
    {p d : SQLQueryParms} {e : SQLParseElement} {s : String}
    {p1 d1 : SQLQueryParms}
    (h : procStep esc p d e = .ok (s, p1, d1)) (m : Nat)
    (hm : (p.params.getD m default).processed = true) :
    p1.params.getD m default = p.params.getD m default := by
  by_cases h0 : 0 ≤ e.num
  · have hnum : e.num = (e.num.toNat : Int) := by omega
    by_cases h1 : e.num.toNat < p.params.length
    · rw [procStep_in_p esc p d e e.num.toNat hnum h1] at h
      simp only [Except.ok.injEq, Prod.mk.injEq] at h
      obtain ⟨-, h2, -⟩ := h
      subst h2
      by_cases hnm : e.num.toNat = m
      · subst hnm
        rw [pprepare_of_processed esc e.option _ p.bound hm]
        exact getD_set_self p.params e.num.toNat _ default h1
      · exact getD_set_ne p.params e.num.toNat m _ default hnm
    · by_cases h2 : e.num.toNat < d.params.length
      · rw [procStep_in_d esc p d e e.num.toNat hnum (not_lt.mp h1) h2] at h
        simp only [Except.ok.injEq, Prod.mk.injEq] at h
        obtain ⟨-, h3, -⟩ := h
        subst h3
        rfl
      · rw [procStep_out_of_bounds esc p d e e.num.toNat hnum
              (not_lt.mp h1) (not_lt.mp h2)] at h
        simp at h
  · rw [procStep_num_neg esc p d e (not_le.mp h0)] at h
    simp only [Except.ok.injEq, Prod.mk.injEq] at h
    obtain ⟨-, h2, -⟩ := h
    subst h2
    rfl

theorem procStep_preserves_processed_d {esc : String → String}
    {p d : SQLQueryParms} {e : SQLParseElement} {s : String}
    {p1 d1 : SQLQueryParms}
    (h : procStep esc p d e = .ok (s, p1, d1)) (m : Nat)
    (hm : (d.params.getD m default).processed = true) :
    d1.params.getD m default = d.params.getD m default := by
  by_cases h0 : 0 ≤ e.num
  · have hnum : e.num = (e.num.toNat : Int) := by omega
    by_cases h1 : e.num.toNat < p.params.length
    · rw [procStep_in_p esc p d e e.num.toNat hnum h1] at h
      simp only [Except.ok.injEq, Prod.mk.injEq] at h
      obtain ⟨-, -, h3⟩ := h
      subst h3
      rfl
    · by_cases h2 : e.num.toNat < d.params.length
      · rw [procStep_in_d esc p d e e.num.toNat hnum (not_lt.mp h1) h2] at h
        simp only [Except.ok.injEq, Prod.mk.injEq] at h
        obtain ⟨-, -, h3⟩ := h
        subst h3
        by_cases hnm : e.num.toNat = m
        · subst hnm
          rw [pprepare_of_processed esc e.option _ d.bound hm]
          exact getD_set_self d.params e.num.toNat _ default h2
        · exact getD_set_ne d.params e.num.toNat m _ default hnm
      · rw [procStep_out_of_bounds esc p d e e.num.toNat hnum
              (not_lt.mp h1) (not_lt.mp h2)] at h
        simp at h
  · rw [procStep_num_neg esc p d e (not_le.mp h0)] at h
    simp only [Except.ok.injEq, Prod.mk.injEq] at h
    obtain ⟨-, -, h3⟩ := h
    subst h3
    rfl

theorem procStep_fixed_p_of_unbound {esc : String → String}
    {p d : SQLQueryParms} {e : SQLParseElement} {s : String}
    {p1 d1 : SQLQueryParms}
    (h : procStep esc p d e = .ok (s, p1, d1)) (hb : p.bound = false) :
    p1 = p := by
  by_cases h0 : 0 ≤ e.num
  · have hnum : e.num = (e.num.toNat : Int) := by omega
    by_cases h1 : e.num.toNat < p.params.length
    · rw [procStep_in_p esc p d e e.num.toNat hnum h1, hb] at h
      simp only [Except.ok.injEq, Prod.mk.injEq] at h
      obtain ⟨-, h2, -⟩ := h
      rw [pprepare_no_replace_snd esc e.option _,
          set_getD_self p.params e.num.toNat default h1] at h2
      have hp : ({ params := p.params, bound := false } : SQLQueryParms) = p := by
        rw [← hb]
      exact h2.symm.trans hp
    · by_cases h2 : e.num.toNat < d.params.length
      · rw [procStep_in_d esc p d e e.num.toNat hnum (not_lt.mp h1) h2] at h
        simp only [Except.ok.injEq, Prod.mk.injEq] at h
        obtain ⟨-, h3, -⟩ := h
        exact h3.symm
      · rw [procStep_out_of_bounds esc p d e e.num.toNat hnum
              (not_lt.mp h1) (not_lt.mp h2)] at h
        simp at h
  · rw [procStep_num_neg esc p d e (not_le.mp h0)] at h
    simp only [Except.ok.injEq, Prod.mk.injEq] at h
    obtain ⟨-, h2, -⟩ := h
    exact h2.symm

theorem procStep_fixed_d_of_unbound {esc : String → String}
    {p d : SQLQueryParms} {e : SQLParseElement} {s : String}
    {p1 d1 : SQLQueryParms}
    (h : procStep esc p d e = .ok (s, p1, d1)) (hb : d.bound = false) :
    d1 = d := by
  by_cases h0 : 0 ≤ e.num
  · have hnum : e.num = (e.num.toNat : Int) := by omega
    by_cases h1 : e.num.toNat < p.params.length
    · rw [procStep_in_p esc p d e e.num.toNat hnum h1] at h
      simp only [Except.ok.injEq, Prod.mk.injEq] at h
      obtain ⟨-, -, h3⟩ := h
      exact h3.symm
    · by_cases h2 : e.num.toNat < d.params.length
      · rw [procStep_in_d esc p d e e.num.toNat hnum (not_lt.mp h1) h2, hb] at h
        simp only [Except.ok.injEq, Prod.mk.injEq] at h
        obtain ⟨-, -, h3⟩ := h
        rw [pprepare_no_replace_snd esc e.option _,
            set_getD_self d.params e.num.toNat default h2] at h3
        have hd : ({ params := d.params, bound := false } : SQLQueryParms) = d := by
          rw [← hb]
        exact h3.symm.trans hd
      · rw [procStep_out_of_bounds esc p d e e.num.toNat hnum
              (not_lt.mp h1) (not_lt.mp h2)] at h
        simp at h
  · rw [procStep_num_neg esc p d e (not_le.mp h0)] at h
    simp only [Except.ok.injEq, Prod.mk.injEq] at h
    obtain ⟨-, -, h3⟩ := h
    exact h3.symm

theorem reaches_preserves {esc : String → String} {p d p2 d2 : SQLQueryParms}
    (h : Reaches esc p d p2 d2) :
    p2.bound = p.bound ∧ d2.bound = d.bound ∧
      p2.params.length = p.params.length ∧
      d2.params.length = d.params.length := by
  induction h with
  | refl => exact ⟨rfl, rfl, rfl, rfl⟩
  | step e hs h2 ih =>
    obtain ⟨a1, a2, a3, a4⟩ := procStep_ok_preserves hs
    obtain ⟨b1, b2, b3, b4⟩ := ih
    exact ⟨b1.trans a1, b2.trans a2, b3.trans a3, b4.trans a4⟩

theorem reaches_preserves_processed_p {esc : String → String} :
    ∀ {p d p2 d2 : SQLQueryParms}, Reaches esc p d p2 d2 → ∀ m : Nat,
      (p.params.getD m default).processed = true →
      p2.params.getD m default = p.params.getD m default := by
  intro p d p2 d2 h
  induction h with
  | refl => intro m _; rfl
  | step e hs h2 ih =>
    intro m hm
    have h1 := procStep_preserves_processed_p hs m hm
    exact (ih m (by rw [h1]; exact hm)).trans h1

theorem reaches_preserves_processed_d {esc : String → String} :
    ∀ {p d p2 d2 : SQLQueryParms}, Reaches esc p d p2 d2 → ∀ m : Nat,
      (d.params.getD m default).processed = true →
      d2.params.getD m default = d.params.getD m default := by
  intro p d p2 d2 h
  induction h with
  | refl => intro m _; rfl
  | step e hs h2 ih =>
    intro m hm
    have h1 := procStep_preserves_processed_d hs m hm
    exact (ih m (by rw [h1]; exact hm)).trans h1

theorem reaches_fixed_p_of_unbound {esc : String → String} :
    ∀ {p d p2 d2 : SQLQueryParms}, Reaches esc p d p2 d2 →
      p.bound = false → p2 = p := by
  intro p d p2 d2 h
  induction h with
  | refl => intro _; rfl
  | step e hs h2 ih =>
    intro hb
    have hp1 := procStep_fixed_p_of_unbound hs hb
    rw [ih (by rw [hp1]; exact hb), hp1]

theorem reaches_fixed_d_of_unbound {esc : String → String} :
    ∀ {p d p2 d2 : SQLQueryParms}, Reaches esc p d p2 d2 →
      d.bound = false → d2 = d := by
  intro p d p2 d2 h
  induction h with
  | refl => intro _; rfl
  | step e hs h2 ih =>
    intro hb
    have hd1 := procStep_fixed_d_of_unbound hs hb
    rw [ih (by rw [hd1]; exact hb), hd1]

/-- A substitution step applied to a call-site entry that is already
`processed` emits the stored text and leaves both lists untouched. -/
theorem procStep_self_of_processed_p {esc : String → String}
    {p d : SQLQueryParms} {e : SQLParseElement} {n : Nat}
    (hnum : e.num = (n : Int)) (h1 : n < p.params.length)
    (hproc : (p.params.getD n default).processed = true) :
    procStep esc p d e = .ok (e.before ++ (p.params.getD n default).data, p, d) := by
  rw [procStep_in_p esc p d e n hnum h1,
      pprepare_of_processed esc e.option _ p.bound hproc,
      set_getD_self p.params n default h1]

/-- Analogue of `procStep_self_of_processed_p` for an entry resolved from
the defaults list. -/
theorem procStep_self_of_processed_d {esc : String → String}
    {p d : SQLQueryParms} {e : SQLParseElement} {n : Nat}
    (hnum : e.num = (n : Int)) (hp : p.params.length ≤ n)
    (h1 : n < d.params.length)
    (hproc : (d.params.getD n default).processed = true) :
    procStep esc p d e = .ok (e.before ++ (d.params.getD n default).data, p, d) := by
  rw [procStep_in_d esc p d e n hnum hp h1,
      pprepare_of_processed esc e.option _ d.bound hproc,
      set_getD_self d.params n default h1]

/-- A replace flag known to be false behaves like the literal `false`. -/
theorem pprepare_snd_of_unbound (esc : String → String) (o : Char)
    (S : SQLTypeAdapter) {rep : Bool} (h : rep = false) :
    (pprepare esc o S rep).2.1 = S := by
  subst h
  exact pprepare_no_replace_snd esc o S

/-- Stability: once a substitution step has run, re-running the same
segment against any later state of the pass reproduces the same emitted
text and leaves the state fixed. -/
theorem procStep_stable {esc : String → String} {p d : SQLQueryParms}
    {e : SQLParseElement} {s : String} {p1 d1 p2 d2 : SQLQueryParms}
    (h : procStep esc p d e = .ok (s, p1, d1))
    (hr : Reaches esc p1 d1 p2 d2) :
    procStep esc p2 d2 e = .ok (s, p2, d2) := by
  obtain ⟨hb2, hdb2, hlp2, hld2⟩ := reaches_preserves hr
  obtain ⟨hb1, hdb1, hlp1, hld1⟩ := procStep_ok_preserves h
  by_cases h0 : 0 ≤ e.num
  · have hnum : e.num = (e.num.toNat : Int) := by omega
    by_cases h1 : e.num.toNat < p.params.length
    · -- resolved from the call-site list
      rw [procStep_in_p esc p d e e.num.toNat hnum h1] at h
      simp only [Except.ok.injEq, Prod.mk.injEq] at h
      obtain ⟨hs1, hp1, hd1⟩ := h
      by_cases hproc : (p.params.getD e.num.toNat default).processed = true
      · -- entry already processed: the step was a no-op
        rw [pprepare_of_processed esc e.option _ p.bound hproc] at hs1 hp1
        dsimp only at hs1 hp1
        rw [set_getD_self p.params e.num.toNat default h1] at hp1
        have hp1e : p = p1 := hp1
        rw [← hp1e] at hr
        have hpres : p2.params.getD e.num.toNat default
            = p.params.getD e.num.toNat default :=
          reaches_preserves_processed_p hr e.num.toNat hproc
        have h1p2 : e.num.toNat < p2.params.length := by
          rw [hlp2, hlp1]; exact h1
        have hcall : procStep esc p2 d2 e =
            .ok (e.before ++ (p2.params.getD e.num.toNat default).data, p2, d2) :=
          procStep_self_of_processed_p hnum h1p2 (by rw [hpres]; exact hproc)
        rw [hcall, hpres, hs1]
      · cases hbp : p.bound with
        | false =>
          have hsnd := pprepare_snd_of_unbound esc e.option
            (p.params.getD e.num.toNat default) hbp
          rw [hsnd, set_getD_self p.params e.num.toNat default h1] at hp1
          have hp1e : p = p1 := hp1
          rw [← hp1e] at hr
          have hfix : p2 = p := reaches_fixed_p_of_unbound hr hbp
          have h1p2 : e.num.toNat < p2.params.length := by
            rw [hfix]; exact h1
          rw [procStep_in_p esc p2 d2 e e.num.toNat hnum h1p2, hfix, hsnd,
              set_getD_self p.params e.num.toNat default h1, hs1]
        | true =>
          have hfst : (pprepare esc e.option
                (p.params.getD e.num.toNat default) p.bound).1
              = (pprepare esc e.option
                (p.params.getD e.num.toNat default) p.bound).2.1 := by
            rw [hbp]
            exact pprepare_replace_fst_eq_snd esc e.option _
          rw [hfst] at hs1
          have hv : ((pprepare esc e.option
              (p.params.getD e.num.toNat default) p.bound).2.1).processed = true := by
            rw [hbp]
            exact pprepare_replace_snd_processed esc e.option _
          have hent : p1.params.getD e.num.toNat default =
              (pprepare esc e.option
                (p.params.getD e.num.toNat default) p.bound).2.1 := by
            rw [← hp1]
            exact getD_set_self p.params e.num.toNat _ default h1
          have hproc1 : (p1.params.getD e.num.toNat default).processed = true := by
            rw [hent]; exact hv
          have hpres : p2.params.getD e.num.toNat default
              = p1.params.getD e.num.toNat default :=
            reaches_preserves_processed_p hr e.num.toNat hproc1
          have h1p2 : e.num.toNat < p2.params.length := by
            rw [hlp2, hlp1]; exact h1
          have hcall : procStep esc p2 d2 e =
              .ok (e.before ++ (p2.params.getD e.num.toNat default).data, p2, d2) :=
            procStep_self_of_processed_p hnum h1p2 (by rw [hpres]; exact hproc1)
          rw [hcall, hpres, hent, hs1]
    · by_cases h2 : e.num.toNat < d.params.length
      · -- resolved from the defaults list
        rw [procStep_in_d esc p d e e.num.toNat hnum (not_lt.mp h1) h2] at h
        simp only [Except.ok.injEq, Prod.mk.injEq] at h
        obtain ⟨hs1, hp1, hd1⟩ := h
        have hnp2 : p2.params.length ≤ e.num.toNat := by
          rw [hlp2, ← hp1]
          exact not_lt.mp h1
        by_cases hproc : (d.params.getD e.num.toNat default).processed = true
        · rw [pprepare_of_processed esc e.option _ d.bound hproc] at hs1 hd1
          dsimp only at hs1 hd1
          rw [set_getD_self d.params e.num.toNat default h2] at hd1
          have hd1e : d = d1 := hd1
          rw [← hd1e] at hr
          have hpres : d2.params.getD e.num.toNat default
              = d.params.getD e.num.toNat default :=
            reaches_preserves_processed_d hr e.num.toNat hproc
          have h2d2 : e.num.toNat < d2.params.length := by
            rw [hld2, hld1]; exact h2
          have hcall : procStep esc p2 d2 e =
              .ok (e.before ++ (d2.params.getD e.num.toNat default).data, p2, d2) :=
            procStep_self_of_processed_d hnum hnp2 h2d2 (by rw [hpres]; exact hproc)
          rw [hcall, hpres, hs1]
        · cases hbd : d.bound with
          | false =>
            have hsnd := pprepare_snd_of_unbound esc e.option
              (d.params.getD e.num.toNat default) hbd
            rw [hsnd, set_getD_self d.params e.num.toNat default h2] at hd1
            have hd1e : d = d1 := hd1
            rw [← hd1e] at hr
            have hfix : d2 = d := reaches_fixed_d_of_unbound hr hbd
            have h2d2 : e.num.toNat < d2.params.length := by
              rw [hfix]; exact h2
            rw [procStep_in_d esc p2 d2 e e.num.toNat hnum hnp2 h2d2, hfix, hsnd,
                set_getD_self d.params e.num.toNat default h2, hs1]
          | true =>
            have hfst : (pprepare esc e.option
                  (d.params.getD e.num.toNat default) d.bound).1
                = (pprepare esc e.option
                  (d.params.getD e.num.toNat default) d.bound).2.1 := by
              rw [hbd]
              exact pprepare_replace_fst_eq_snd esc e.option _
            rw [hfst] at hs1
            have hv : ((pprepare esc e.option
                (d.params.getD e.num.toNat default) d.bound).2.1).processed = true := by
              rw [hbd]
              exact pprepare_replace_snd_processed esc e.option _
            have hent : d1.params.getD e.num.toNat default =
                (pprepare esc e.option
                  (d.params.getD e.num.toNat default) d.bound).2.1 := by
              rw [← hd1]
              exact getD_set_self d.params e.num.toNat _ default h2
            have hproc1 : (d1.params.getD e.num.toNat default).processed = true := by
              rw [hent]; exact hv
            have hpres : d2.params.getD e.num.toNat default
                = d1.params.getD e.num.toNat default :=
              reaches_preserves_processed_d hr e.num.toNat hproc1
            have h2d2 : e.num.toNat < d2.params.length := by
              rw [hld2, hld1]; exact h2
            have hcall : procStep esc p2 d2 e =
                .ok (e.before ++ (d2.params.getD e.num.toNat default).data, p2, d2) :=
              procStep_self_of_processed_d hnum hnp2 h2d2 (by rw [hpres]; exact hproc1)
            rw [hcall, hpres, hent, hs1]
      · rw [procStep_out_of_bounds esc p d e e.num.toNat hnum
              (not_lt.mp h1) (not_lt.mp h2)] at h
        simp at h
  · rw [procStep_num_neg esc p d e (not_le.mp h0)] at h
    simp only [Except.ok.injEq, Prod.mk.injEq] at h
    obtain ⟨hs1, hp1, hd1⟩ := h
    rw [procStep_num_neg esc p2 d2 e (not_le.mp h0), hs1]

/-- The output buffer is append-only: running the loop with a non-empty
starting buffer prefixes every outcome with it. -/
theorem procGo_shift (esc : String → String) (elems : List SQLParseElement)
    (p d : SQLQueryParms) (b : String) :
    procGo esc elems p d b =
      match procGo esc elems p d "" with
      | .ok (s, p', d') => .ok (b ++ s, p', d')
      | .error (err, s) => .error (err, b ++ s) := by
  induction elems generalizing p d b with
  | nil => simp [procGo, String.append_empty]
  | cons e rest ih =>
    simp only [procGo]
    cases hs : procStep esc p d e with
    | error err =>
      cases err with
      | mk err s => simp [String.empty_append, String.append_assoc]
    | ok v =>
      obtain ⟨s, p', d'⟩ := v
      dsimp only
      rw [ih p' d' (b ++ s), ih p' d' ("" ++ s)]
      cases procGo esc rest p' d' "" with
      | error err =>
        cases err with
        | mk err t => simp [String.empty_append, String.append_assoc]
      | ok w =>
        obtain ⟨t, p2, d2⟩ := w
        simp [String.empty_append, String.append_assoc]

/-- Splitting the loop over an append of segment lists. -/
theorem procGo_append (esc : String → String) (xs ys : List SQLParseElement)
    (p d : SQLQueryParms) (b : String) :
    procGo esc (xs ++ ys) p d b =
      match procGo esc xs p d b with
      | .ok (b1, p1, d1) => procGo esc ys p1 d1 b1
      | .error err => .error err := by
  induction xs generalizing p d b with
  | nil => simp [procGo]
  | cons e rest ih =>
    simp only [List.cons_append, procGo]
    cases hs : procStep esc p d e with
    | error err =>
      cases err with
      | mk err s => simp
    | ok v =>
      obtain ⟨s, p', d'⟩ := v
      exact ih p' d' (b ++ s)

/-- A successful pass witnesses reachability of its final list states. -/
theorem procGo_ok_reaches {esc : String → String} :
    ∀ (elems : List SQLParseElement) (p d : SQLQueryParms) (b B : String)
      (pf df : SQLQueryParms),
      procGo esc elems p d b = .ok (B, pf, df) → Reaches esc p d pf df := by
  intro elems
  induction elems with
  | nil =>
    intro p d b B pf df h
    simp only [procGo, Except.ok.injEq, Prod.mk.injEq] at h
    obtain ⟨-, h1, h2⟩ := h
    rw [← h1, ← h2]
    exact Reaches.refl p d
  | cons e rest ih =>
    intro p d b B pf df h
    simp only [procGo] at h
    cases hs : procStep esc p d e with
    | error err =>
      rw [hs] at h
      cases err with
      | mk err s => simp at h
    | ok v =>
      obtain ⟨s, p', d'⟩ := v
      rw [hs] at h
      exact Reaches.step e hs (ih p' d' (b ++ s) B pf df h)

/-- Running a full pass again from its own final state reproduces the same
rendered buffer and leaves the lists fixed. -/
theorem procGo_idem {esc : String → String} :
    ∀ (elems : List SQLParseElement) (p d : SQLQueryParms) (B : String)
      (pf df : SQLQueryParms),
      procGo esc elems p d "" = .ok (B, pf, df) →
      procGo esc elems pf df "" = .ok (B, pf, df) := by
  intro elems
  induction elems with
  | nil =>
    intro p d B pf df h
    simp only [procGo, Except.ok.injEq, Prod.mk.injEq] at h
    obtain ⟨h1, h2, h3⟩ := h
    subst h1; subst h2; subst h3
    rfl
  | cons e rest ih =>
    intro p d B pf df h
    simp only [procGo] at h ⊢
    cases hs : procStep esc p d e with
    | error err =>
      rw [hs] at h
      cases err with
      | mk err s => simp at h
    | ok v =>
      obtain ⟨s, p1, d1⟩ := v
      rw [hs] at h
      dsimp only at h
      rw [String.empty_append] at h
      -- split the remaining pass at its empty-buffer form
      rw [procGo_shift esc rest p1 d1 s] at h
      cases hrest : procGo esc rest p1 d1 "" with
      | error err =>
        rw [hrest] at h
        cases err with
        | mk err t => simp at h
      | ok w =>
        obtain ⟨B2, pf2, df2⟩ := w
        rw [hrest] at h
        simp only [Except.ok.injEq, Prod.mk.injEq] at h
        obtain ⟨hB, hpf, hdf⟩ := h
        subst hpf; subst hdf
        have hreach := procGo_ok_reaches rest p1 d1 "" B2 pf2 df2 hrest
        have hstable := procStep_stable hs hreach
        rw [hstable]
        dsimp only
        rw [String.empty_append, procGo_shift esc rest pf2 df2 s,
            ih p1 d1 B2 pf2 df2 hrest]
        dsimp only
        rw [hB]

/-! Support lemmas about the parser. -/

theorem digitVal_le (c : Char) (h : c.isDigit = true) : digitVal c ≤ 9 := by
  simp only [Char.isDigit, decide_eq_true_eq, Bool.and_eq_true] at h
  obtain ⟨h1, h2⟩ := h
  have g1 : (48 : UInt32).toNat ≤ c.val.toNat := h1
  have g2 : c.val.toNat ≤ (57 : UInt32).toNat := h2
  simp [Char.toNat, UInt32.size, digitVal] at g1 g2 ⊢
  omega

theorem takeNum_val_le (d1 : Char) (s : List Char) (h : d1.isDigit = true) :
    (takeNum d1 s).1 ≤ 999 := by
  have h1 := digitVal_le d1 h
  match s with
  | [] => simp [takeNum]; omega
  | d2 :: rest =>
    by_cases h2 : d2.isDigit
    · have h2v := digitVal_le d2 h2
      match rest with
      | [] => simp [takeNum, h2]; omega
      | d3 :: rest2 =>
        by_cases h3 : d3.isDigit
        · have h3v := digitVal_le d3 h3
          simp [takeNum, h2, h3]; omega
        · simp [takeNum, h2, h3]; omega
    · simp [takeNum, h2]; omega

theorem isDigit_ne (c x : Char) (h : c.isDigit = true) (hx : x.isDigit = false) :
    c ≠ x := by
  intro he
  rw [he, hx] at h
  cases h

theorem takeOption_other (c : Char) (rest : List Char)
    (h : (c = 'q' || c = 'Q') = false) :
    takeOption (c :: rest) = (' ', c :: rest) := by
  simp [takeOption, h]

theorem takeName_not_colon (c : Char) (rest : List Char) (h : c ≠ ':') :
    takeName (c :: rest) = (none, c :: rest) := by
  unfold takeName
  split
  · rename_i heq
    simp at heq
    exact absurd heq.1 h
  · rfl

/-- Reduction of the scanning loop at a placeholder: `%` followed by a
digit consumes the position digits, the option character and the name
clause, then appends the placeholder segment and continues. -/
theorem parseLoop_digit (c : Char) (rest2 : List Char) (str : String)
    (elems : List SQLParseElement) (names : List String)
    (nums : List (String × Int)) (h : c.isDigit = true) :
    parseLoop ('%' :: c :: rest2) str elems names nums =
      parseLoop (takeName (takeOption (takeNum c rest2).2).2).2 ""
        (elems ++ [⟨str, (takeOption (takeNum c rest2).2).1,
                    toSignedChar (takeNum c rest2).1⟩])
        (match (takeName (takeOption (takeNum c rest2).2).2).1 with
          | some nm =>
            updateMaps (toSignedChar (takeNum c rest2).1) nm names nums
          | none => (names, nums)).1
        (match (takeName (takeOption (takeNum c rest2).2).2).1 with
          | some nm =>
            updateMaps (toSignedChar (takeNum c rest2).1) nm names nums
          | none => (names, nums)).2 := by
  have hne : c ≠ '%' := isDigit_ne c '%' h (by decide)
  rw [parseLoop]
  · split
    · rfl
    · rename_i h2
      exact absurd h h2
  · intro he
    exact absurd he hne

theorem parseLoop_pct_other (c : Char) (rest2 : List Char) (str : String)
    (elems : List SQLParseElement) (names : List String)
    (nums : List (String × Int)) (hne : c ≠ '%') (h : c.isDigit = false) :
    parseLoop ('%' :: c :: rest2) str elems names nums =
      parseLoop (c :: rest2) (str.push '%') elems names nums := by
  rw [parseLoop]
  · split
    · rename_i h2
      rw [h] at h2
      cases h2
    · rfl
  · intro he
    exact absurd he hne

theorem parseLoop_pct_end (str : String) (elems : List SQLParseElement)
    (names : List String) (nums : List (String × Int)) :
    parseLoop ['%'] str elems names nums =
      parseLoop [] (str.push '%') elems names nums := by
  conv_lhs => rw [parseLoop]

theorem parseLoop_other (c : Char) (rest : List Char) (str : String)
    (elems : List SQLParseElement) (names : List String)
    (nums : List (String × Int)) (hne : c ≠ '%') :
    parseLoop (c :: rest) str elems names nums =
      parseLoop rest (str.push c) elems names nums := by
  rw [parseLoop]
  exact fun he => absurd he hne

/-- Shape invariant of the scanning loop: it appends some placeholder
segments (each with a position produced by the `signed char` conversion of
an at-most-three-digit value) and finishes with the trailing sentinel
segment of position `-1`. -/
theorem parseLoop_elems (s : List Char) (str : String)
    (elems : List SQLParseElement) (names : List String)
    (nums : List (String × Int)) :
    ∃ mid lastStr,
      (parseLoop s str elems names nums).parse_elems
          = elems ++ mid ++ [⟨lastStr, ' ', -1⟩]
        ∧ ∀ e ∈ mid, ∃ v : Nat, v ≤ 999 ∧ e.num = toSignedChar v := by
  induction s, str, elems, names, nums using parseLoop.induct with
  | case1 str elems names nums =>
    exact ⟨[], str, by simp [parseLoop], by simp⟩
  | case2 str elems names nums rest2 ih =>
    obtain ⟨mid, last, h1, h2⟩ := ih
    refine ⟨mid, last, ?_, h2⟩
    rw [parseLoop]
    exact h1
  | case3 str elems names nums c rest2 hne hdig rNum n rOpt rName maps ih =>
    obtain ⟨mid, last, h1, h2⟩ := ih
    unfold_let rNum n rOpt rName maps at h1 h2
    refine ⟨⟨str, (takeOption (takeNum c rest2).2).1,
      toSignedChar (takeNum c rest2).1⟩ :: mid, last, ?_, ?_⟩
    · rw [parseLoop_digit c rest2 str elems names nums hdig]
      rw [h1]
      simp
    · intro e he
      rcases List.mem_cons.mp he with he1 | he2
      · exact ⟨(takeNum c rest2).1, takeNum_val_le c rest2 hdig, by rw [he1]⟩
      · exact h2 e he2
  | case4 str elems names nums c rest2 hne hdig ih =>
    obtain ⟨mid, last, h1, h2⟩ := ih
    refine ⟨mid, last, ?_, h2⟩
    rw [parseLoop_pct_other c rest2 str elems names nums
      (fun he => hne he) (Bool.not_eq_true _ ▸ eq_false_of_ne_true hdig)]
    exact h1
  | case5 str elems names nums ih =>
    obtain ⟨mid, last, h1, h2⟩ := ih
    refine ⟨mid, last, ?_, h2⟩
    rw [parseLoop_pct_end]
    exact h1
  | case6 str elems names nums c rest hne ih =>
    obtain ⟨mid, last, h1, h2⟩ := ih
    refine ⟨mid, last, ?_, h2⟩
    rw [parseLoop_other c rest str elems names nums (fun he => hne he)]
    exact h1

/-! The claims. -/

/-- C1: for a bound (mutable, call-site) parameter list whose values were
substituted once through a `proc` pass (in particular with option `q`), a
second `proc` pass over the same parameter list renders every value
identically and leaves the lists unchanged: once a value's `processed` flag
is true, `pprepare` returns it as-is and never re-escapes or re-quotes it. -/
theorem proc_second_pass_identical (esc : String → String)
    (elems : List SQLParseElement) (p d : SQLQueryParms) (B : String)
    (p' d' : SQLQueryParms) (hbound : p.bound = true)
    (h : proc esc elems p d = .ok (B, p', d')) :
    proc esc elems p' d' = .ok (B, p', d') :=
  procGo_idem elems p d B p' d' h

theorem proc_second_pass_identical_witness :
    proc (fun s => s) [⟨"select ", 'q', 0⟩, ⟨"", ' ', -1⟩]
        ⟨[⟨"a", true, false, false⟩], true⟩ ⟨[], false⟩
      = .ok ("select 'a'", ⟨[⟨"'a'", true, false, true⟩], true⟩, ⟨[], false⟩)
    ∧ proc (fun s => s) [⟨"select ", 'q', 0⟩, ⟨"", ' ', -1⟩]
        ⟨[⟨"'a'", true, false, true⟩], true⟩ ⟨[], false⟩
      = .ok ("select 'a'", ⟨[⟨"'a'", true, false, true⟩], true⟩, ⟨[], false⟩) :=
  ⟨by decide,
   proc_second_pass_identical (fun s => s) [⟨"select ", 'q', 0⟩, ⟨"", ' ', -1⟩]
     ⟨[⟨"a", true, false, false⟩], true⟩ ⟨[], false⟩ "select 'a'"
     ⟨[⟨"'a'", true, false, true⟩], true⟩ ⟨[], false⟩ rfl (by decide)⟩

/-- C2: for a placeholder segment with position `n`, `proc`'s per-segment
action substitutes the call-site value when `n` is within the call-site
list's bounds, else the stored default when `n` is within the defaults
list's bounds, and otherwise fails with `BadParamCount`; the failure is
unconditional (no exceptions-mode setting is consulted). -/
theorem proc_param_resolution (esc : String → String) (p d : SQLQueryParms)
    (e : SQLParseElement) (n : Nat) (hnum : e.num = (n : Int)) :
    (n < p.params.length →
      procStep esc p d e = .ok
        (e.before
           ++ (pprepare esc e.option (p.params.getD n default) p.bound).1.data,
         { p with params := (p.params.set n
            (pprepare esc e.option (p.params.getD n default) p.bound).2.1) },
         d))
    ∧ (p.params.length ≤ n → n < d.params.length →
      procStep esc p d e = .ok
        (e.before
           ++ (pprepare esc e.option (d.params.getD n default) d.bound).1.data,
         p,
         { d with params := (d.params.set n
            (pprepare esc e.option (d.params.getD n default) d.bound).2.1) }))
    ∧ (p.params.length ≤ n → d.params.length ≤ n →
      procStep esc p d e
        = .error (QueryError.BadParamCount, e.before ++ " ERROR")) :=
  ⟨fun h => procStep_in_p esc p d e n hnum h,
   fun h1 h2 => procStep_in_d esc p d e n hnum h1 h2,
   fun h1 h2 => procStep_out_of_bounds esc p d e n hnum h1 h2⟩

theorem proc_param_resolution_witness :
    procStep (fun s => s) ⟨[⟨"1", false, false, false⟩], true⟩
        ⟨[⟨"x", true, false, false⟩, ⟨"y", true, false, false⟩], false⟩
        ⟨" where id=", ' ', 1⟩
      = .ok (" where id=y",
             ⟨[⟨"1", false, false, false⟩], true⟩,
             ⟨[⟨"x", true, false, false⟩, ⟨"y", true, false, false⟩], false⟩) := by
  have h := (proc_param_resolution (fun s => s)
      ⟨[⟨"1", false, false, false⟩], true⟩
      ⟨[⟨"x", true, false, false⟩, ⟨"y", true, false, false⟩], false⟩
      ⟨" where id=", ' ', 1⟩ 1 rfl).2.1 (by decide) (by decide)
  exact h.trans (by decide)

/-- C4: under option `q` an unprocessed string-typed value is escaped via
the driver's escaping routine and wrapped in single quotes (quote-only when
escaping was suppressed for the value), while a numeric (non-string) value
is emitted as-is; option `Q` wraps string-typed values in single quotes
without escaping and leaves non-string values as-is. -/
theorem pprepare_quote_policy (esc : String → String) (S : SQLTypeAdapter)
    (rep : Bool) (hp : S.processed = false) :
    (S.is_string = true → S.dont_escape = false →
      (pprepare esc 'q' S rep).1.data = "'" ++ esc S.data ++ "'")
    ∧ (S.is_string = true → S.dont_escape = true →
      (pprepare esc 'q' S rep).1.data = "'" ++ S.data ++ "'")
    ∧ (S.is_string = false → (pprepare esc 'q' S rep).1.data = S.data)
    ∧ (S.is_string = true → (pprepare esc 'Q' S rep).1.data = "'" ++ S.data ++ "'")
    ∧ (S.is_string = false → (pprepare esc 'Q' S rep).1.data = S.data) := by
  refine ⟨fun h1 h2 => ?_, fun h1 h2 => ?_, fun h1 => ?_, fun h1 => ?_, fun h1 => ?_⟩ <;>
    cases rep <;>
      simp [pprepare, SQLTypeAdapter.quote_q, SQLTypeAdapter.escape_q, hp, h1,
        String.empty_append, String.append_empty]
  all_goals simp [h2]

theorem pprepare_quote_policy_witness :
    (pprepare (fun s => s ++ "!") 'q' ⟨"ab", true, false, false⟩ true).1.data
        = "'" ++ ((fun s : String => s ++ "!") "ab") ++ "'"
    ∧ (pprepare (fun s => s ++ "!") 'q' ⟨"17", false, false, false⟩ true).1.data
        = "17" :=
  ⟨((pprepare_quote_policy (fun s => s ++ "!")
      ⟨"ab", true, false, false⟩ true rfl).1 rfl rfl),
   ((pprepare_quote_policy (fun s => s ++ "!")
      ⟨"17", false, false, false⟩ true rfl).2.2.1 rfl)⟩

/-- C7: a value resolved from the mutable bound call-site list is replaced
in place by its quoted/escaped rendering and marked processed (the emitted
text is exactly the stored replacement), while a value resolved from the
read-only defaults list leaves the defaults entry byte-for-byte unchanged
and the rendering is produced as a fresh temporary. -/
theorem proc_replace_semantics (esc : String → String) (p d : SQLQueryParms)
    (e : SQLParseElement) (n : Nat) (hnum : e.num = (n : Int))
    (hb : p.bound = true) (hdb : d.bound = false) :
    (n < p.params.length →
      procStep esc p d e = .ok
        (e.before
           ++ ((pprepare esc e.option (p.params.getD n default) true).2.1).data,
         { p with params := (p.params.set n
            (pprepare esc e.option (p.params.getD n default) true).2.1) },
         d)
      ∧ ((pprepare esc e.option (p.params.getD n default) true).2.1).processed
          = true)
    ∧ (p.params.length ≤ n → n < d.params.length →
      procStep esc p d e = .ok
        (e.before
           ++ (pprepare esc e.option (d.params.getD n default) false).1.data,
         p, d)) := by
  constructor
  · intro h
    have hpp : pprepare esc e.option (p.params.getD n default) p.bound
        = pprepare esc e.option (p.params.getD n default) true := by rw [hb]
    have hstep := procStep_in_p esc p d e n hnum h
    rw [hpp, pprepare_replace_fst_eq_snd esc e.option _] at hstep
    exact ⟨hstep, pprepare_replace_snd_processed esc e.option _⟩
  · intro hlp h
    have hpp : pprepare esc e.option (d.params.getD n default) d.bound
        = pprepare esc e.option (d.params.getD n default) false := by rw [hdb]
    have hstep := procStep_in_d esc p d e n hnum hlp h
    rw [hpp, pprepare_no_replace_snd esc e.option _,
        set_getD_self d.params n default h] at hstep
    exact hstep

theorem proc_replace_semantics_witness :
    procStep (fun s => s) ⟨[⟨"v", true, false, false⟩], true⟩ ⟨[], false⟩
        ⟨"set x=", 'q', 0⟩
      = .ok ("set x='v'", ⟨[⟨"'v'", true, false, true⟩], true⟩, ⟨[], false⟩) := by
  have h := ((proc_replace_semantics (fun s => s)
      ⟨[⟨"v", true, false, false⟩], true⟩ ⟨[], false⟩
      ⟨"set x=", 'q', 0⟩ 0 rfl rfl rfl).1 (by decide)).1
  exact h.trans (by decide)

/-- C10: when `proc` fails with `BadParamCount`, the output buffer is not
rolled back: it holds the rendering of every segment before the failing
placeholder, then the failing segment's literal text, then " ERROR". -/
theorem proc_error_buffer_not_restored (esc : String → String)
    (pre rest : List SQLParseElement) (e : SQLParseElement)
    (p d : SQLQueryParms) (B : String) (p1 d1 : SQLQueryParms) (n : Nat)
    (hpre : procGo esc pre p d "" = .ok (B, p1, d1))
    (hnum : e.num = (n : Int))
    (hp : p1.params.length ≤ n) (hd : d1.params.length ≤ n) :
    proc esc (pre ++ e :: rest) p d
      = .error (QueryError.BadParamCount, B ++ (e.before ++ " ERROR")) := by
  unfold proc
  rw [procGo_append esc pre (e :: rest) p d "", hpre]
  dsimp only
  rw [procGo, procStep_out_of_bounds esc p1 d1 e n hnum hp hd]

theorem proc_error_buffer_not_restored_witness :
    proc (fun s => s) ([⟨"sel ", ' ', 0⟩] ++ ⟨" w ", ' ', 1⟩ :: [])
        ⟨[⟨"5", false, false, false⟩], true⟩ ⟨[], false⟩
      = .error (QueryError.BadParamCount, "sel 5 w  ERROR") := by
  have h := proc_error_buffer_not_restored (fun s => s)
      [⟨"sel ", ' ', 0⟩] [] ⟨" w ", ' ', 1⟩
      ⟨[⟨"5", false, false, false⟩], true⟩ ⟨[], false⟩ "sel 5"
      ⟨[⟨"5", false, false, true⟩], true⟩ ⟨[], false⟩ 1
      (by decide) rfl (by decide) (by decide)
  exact h.trans (by decide)

/-- C3: when the driver runs the statement successfully but returns no
materialized result handle and reports no pending error code, `store`
returns a valid-but-empty `Result` and does not throw, even with exceptions
enabled; it throws `BadQuery` only when a pending driver error code exists
and exceptions are enabled. -/
theorem store_empty_result_not_error (q : QueryState) (drv : DBDriver)
    (throwEx : Bool) :
    (drv.executeOk = true → drv.storeResultHandle = none → drv.errnum = 0 →
      (store q drv throwEx).2 = .ok Result.empty)
    ∧ (∀ err, (store q drv throwEx).2 = .error err →
        drv.errnum ≠ 0 ∧ throwEx = true ∧ err = QueryError.BadQuery drv.errnum) := by
  constructor
  · intro h1 h2 h3
    by_cases hq : q.parse_elems.length = 0 <;>
      simp [store, QueryState.reset, DBDriver.result_empty, hq, h1, h2, h3]
  · intro err h
    by_cases hq : q.parse_elems.length = 0 <;>
      cases he : drv.executeOk <;>
        cases hh : drv.storeResultHandle <;>
          cases ht : throwEx <;>
            by_cases hn : drv.errnum = 0 <;>
              simp_all [store, QueryState.reset, DBDriver.result_empty]

theorem store_empty_result_not_error_witness :
    (store ⟨[], ⟨[], false⟩, true⟩ ⟨true, none, 0, NRCode.nr_last_result⟩
      true).2 = .ok Result.empty :=
  (store_empty_result_not_error ⟨[], ⟨[], false⟩, true⟩
    ⟨true, none, 0, NRCode.nr_last_result⟩ true).1 rfl rfl rfl

/-- C9: when the driver reports that no more result sets remain and reports
no error, `store_next` returns a success-with-empty `Result`; an error is
raised only when the driver itself reports one (an error return code or a
pending error number), and only with exceptions enabled. -/
theorem store_next_end_of_results (drv : DBDriver) (throwEx : Bool) :
    (drv.nextResultCode = NRCode.nr_last_result → drv.errnum = 0 →
      store_next drv throwEx = .ok Result.empty)
    ∧ (∀ err, store_next drv throwEx = .error err →
        (drv.nextResultCode = NRCode.nr_error ∨ drv.errnum ≠ 0)
        ∧ throwEx = true ∧ err = QueryError.BadQuery drv.errnum) := by
  constructor
  · intro h1 h2
    simp [store_next, h1, h2]
  · intro err h
    cases hc : drv.nextResultCode <;>
      cases hh : drv.storeResultHandle <;>
        cases ht : throwEx <;>
          by_cases hn : drv.errnum = 0 <;>
            simp_all [store_next]

theorem store_next_end_of_results_witness :
    store_next ⟨true, none, 0, NRCode.nr_last_result⟩ true = .ok Result.empty :=
  (store_next_end_of_results ⟨true, none, 0, NRCode.nr_last_result⟩ true).1
    rfl rfl

/-- C5 counterexample: the template "a%255b" yields two segments of
position `-1` (the placeholder digits 255 wrap to `-1` through the
`signed char` conversion), so the parsed sequence does not contain exactly
one position `-1` segment, and the one it does contain first is not the
trailing one. -/
theorem parse_trailing_sentinel_cex :
    (parse "a%255b").parse_elems = [⟨"a", ' ', -1⟩, ⟨"b", ' ', -1⟩]
    ∧ ((parse "a%255b").parse_elems.countP (fun e => e.num == -1)) ≠ 1 := by
  have h : (parse "a%255b").parse_elems = [⟨"a", ' ', -1⟩, ⟨"b", ' ', -1⟩] := by
    simp [parse, parseLoop, takeNum, takeOption, takeName, toSignedChar, digitVal]
    try decide
  exact ⟨h, by rw [h]; decide⟩

/-- C5 amended: every parsed segment sequence ends with a trailing segment
of position `-1`; every non-final segment's position is the `signed char`
conversion of its at-most-three-digit value, so a non-final segment can
also carry position `-1`, exactly when that value is congruent to 255
mod 256.  For templates with no such placeholder the trailing segment is
the unique one with position `-1`. -/
theorem parse_trailing_sentinel_amended (s : String) :
    ∃ init lastStr,
      (parse s).parse_elems = init ++ [⟨lastStr, ' ', -1⟩]
      ∧ (∀ e ∈ init, ∃ v : Nat, v ≤ 999 ∧ e.num = toSignedChar v)
      ∧ (∀ e ∈ init, e.num = -1 →
          ∃ v : Nat, v ≤ 999 ∧ v % 256 = 255 ∧ e.num = toSignedChar v) := by
  obtain ⟨mid, last, h1, h2⟩ := parseLoop_elems s.toList "" [] [] []
  refine ⟨mid, last, by simpa [parse] using h1, h2, ?_⟩
  intro e he hnum
  obtain ⟨v, hv, he2⟩ := h2 e he
  refine ⟨v, hv, ?_, he2⟩
  rw [he2] at hnum
  simp only [toSignedChar] at hnum
  split at hnum <;> omega

theorem parse_trailing_sentinel_amended_witness :
    ∃ init lastStr,
      (parse "a%1b").parse_elems = init ++ [⟨lastStr, ' ', -1⟩]
      ∧ (∀ e ∈ init, ∃ v : Nat, v ≤ 999 ∧ e.num = toSignedChar v)
      ∧ (∀ e ∈ init, e.num = -1 →
          ∃ v : Nat, v ≤ 999 ∧ v % 256 = 255 ∧ e.num = toSignedChar v) :=
  parse_trailing_sentinel_amended "a%1b"

/-- C6 counterexample: in the template "%200" the parser consumes the three
digits, but the stored placeholder position is `-56`, not the decimal value
200: the value is narrowed through a C `signed char`. -/
theorem parse_digit_limit_cex :
    (parse "%200").parse_elems = [⟨"", ' ', -56⟩, ⟨"", ' ', -1⟩]
    ∧ ∀ e ∈ (parse "%200").parse_elems, e.num ≠ 200 := by
  have h : (parse "%200").parse_elems = [⟨"", ' ', -56⟩, ⟨"", ' ', -1⟩] := by
    simp [parse, parseLoop, takeNum, takeOption, takeName, toSignedChar, digitVal]
    try decide
  exact ⟨h, by rw [h]; decide⟩

/-- C6 amended: `%` followed by digits consumes at most three of them; the
placeholder position is the `signed char` conversion of the digits' decimal
value (equal to that value whenever it is at most 127), and with four or
more digits scanning stops after the third: the fourth digit is handled as
ordinary input after the placeholder. -/
theorem parse_digit_limit_amended (d1 d2 d3 d4 : Char) (rest : List Char)
    (str : String) (elems : List SQLParseElement) (names : List String)
    (nums : List (String × Int))
    (h1 : d1.isDigit = true) (h2 : d2.isDigit = true)
    (h3 : d3.isDigit = true) (h4 : d4.isDigit = true) :
    parseLoop ('%' :: d1 :: d2 :: d3 :: d4 :: rest) str elems names nums
      = parseLoop (d4 :: rest) ""
          (elems ++ [⟨str, ' ',
            toSignedChar (100 * digitVal d1 + 10 * digitVal d2 + digitVal d3)⟩])
          names nums
    ∧ (100 * digitVal d1 + 10 * digitVal d2 + digitVal d3 ≤ 127 →
        toSignedChar (100 * digitVal d1 + 10 * digitVal d2 + digitVal d3)
          = (100 * digitVal d1 + 10 * digitVal d2 + digitVal d3 : Nat)) := by
  constructor
  · rw [parseLoop_digit d1 (d2 :: d3 :: d4 :: rest) str elems names nums h1]
    have ht : takeNum d1 (d2 :: d3 :: d4 :: rest)
        = (100 * digitVal d1 + 10 * digitVal d2 + digitVal d3, d4 :: rest) := by
      simp [takeNum, h2, h3]
    rw [ht]
    have ho : takeOption (d4 :: rest) = (' ', d4 :: rest) := by
      refine takeOption_other d4 rest ?_
      have hq := isDigit_ne d4 'q' h4 (by decide)
      have hQ := isDigit_ne d4 'Q' h4 (by decide)
      simp [hq, hQ]
    rw [ho, takeName_not_colon d4 rest (isDigit_ne d4 ':' h4 (by decide))]
  · intro hle
    have hlt : (100 * digitVal d1 + 10 * digitVal d2 + digitVal d3) % 256
        = 100 * digitVal d1 + 10 * digitVal d2 + digitVal d3 :=
      Nat.mod_eq_of_lt (by omega)
    simp only [toSignedChar, hlt]
    rw [if_pos (by omega)]
    omega

theorem parse_digit_limit_amended_witness :
    parseLoop ('%' :: '1' :: '2' :: '3' :: '4' :: []) "" [] [] []
      = parseLoop ['4'] ""
          ([] ++ [⟨"", ' ',
            toSignedChar (100 * digitVal '1' + 10 * digitVal '2' + digitVal '3')⟩])
          [] []
    ∧ (100 * digitVal '1' + 10 * digitVal '2' + digitVal '3' ≤ 127 →
        toSignedChar (100 * digitVal '1' + 10 * digitVal '2' + digitVal '3')
          = (100 * digitVal '1' + 10 * digitVal '2' + digitVal '3' : Nat)) :=
  parse_digit_limit_amended '1' '2' '3' '4' [] "" [] [] []
    (by decide) (by decide) (by decide) (by decide)

/-- C8: the template "100%% done" parses with zero placeholder segments
(each doubled percent sign becomes a literal percent sign), and rendering
the parsed template produces exactly the literal text "100% done". -/
theorem parse_percent_escape_roundtrip (esc : String → String)
    (p d : SQLQueryParms) :
    (parse "100%% done").parse_elems = [⟨"100% done", ' ', -1⟩]
    ∧ proc esc (parse "100%% done").parse_elems p d
        = .ok ("100% done", p, d) := by
  have hp : (parse "100%% done").parse_elems = [⟨"100% done", ' ', -1⟩] := by
    simp [parse, parseLoop]
    try decide
  refine ⟨hp, ?_⟩
  rw [hp]
  simp [proc, procGo, procStep, String.empty_append, String.append_empty]

end Mysqlpp
